import Mathlib

/-!
Shallow embedding of the deployment scaffolding of the `tgbot` repository:
the MongoDB bootstrap script (`backup/docker/mongo-init.js`), the two image
publish scripts (`docker-push.sh`, shell, and the batch variant), the
`Dockerfile`, and the `fix_api_path.sh` patch script.
-/

namespace Tgbot

/-! ## Document-store model (mongo-init.js)

The bootstrap script runs statements against a MongoDB database.  We model
the values stored in documents, documents as field lists, collections with
their secondary indexes, and the database with its application users.  An
operation either succeeds with a new database state or fails with an error
message; a failed operation leaves the database unchanged (mongo shell
semantics: the statement throws and the script aborts). -/

/-- A BSON value as used by the bootstrap script: strings, booleans,
integers and dates (`new Date()` is modelled as a natural-number clock
reading passed in from outside). -/
inductive BVal where
  | str (s : String)
  | bool (b : Bool)
  | int (n : Int)
  | date (t : Nat)
deriving DecidableEq, Repr

/-- A document: an association list from field names to values. -/
abbrev BDoc := List (String × BVal)

/-- Look up a field of a document.  `none` when the field is absent
(mongo treats an absent field as `null` for index purposes, so two
documents both missing an indexed field compare equal there). -/
def getField (d : BDoc) (f : String) : Option BVal :=
  (d.find? (fun p => p.1 == f)).map Prod.snd

/-- A secondary index: its key specification (as in `createIndex`) and
whether it is unique. -/
structure MIndex where
  keys : List (String × Int)
  unique : Bool
deriving DecidableEq, Repr

/-- A collection: its indexes and its documents, in insertion order. -/
structure MColl where
  idxs : List MIndex
  docs : List BDoc
deriving DecidableEq, Repr

/-- A database user created by `db.createUser`. -/
structure MUser where
  user : String
  pwd : String
  roles : List (String × String)
deriving DecidableEq, Repr

/-- The state of one database (the `tgbot` database selected by
`getSiblingDB('tgbot')`): its named collections and its users. -/
structure MDb where
  colls : List (String × MColl)
  dbUsers : List MUser
deriving DecidableEq, Repr

/-- The statements the bootstrap script issues. -/
inductive MOp where
  | createUser (user pwd : String) (roles : List (String × String))
  | createCollection (name : String)
  | createIndex (coll : String) (keys : List (String × Int)) (unique : Bool)
  | insertOne (coll : String) (doc : BDoc)
deriving DecidableEq, Repr

/-- The collection stored under a name, if any. -/
def lookupColl (s : MDb) (c : String) : Option MColl :=
  (s.colls.find? (fun p => p.1 == c)).map Prod.snd

/-- Replace the collection stored under a name. -/
def setColl (s : MDb) (c : String) (col : MColl) : MDb :=
  { s with colls := s.colls.map (fun p => if p.1 == c then (p.1, col) else p) }

/-- Whether two documents agree (field by field) on every key of an index
specification: this is what makes a unique index reject the second one. -/
def collides (keys : List (String × Int)) (d1 d2 : BDoc) : Bool :=
  keys.all (fun k => getField d1 k.1 == getField d2 k.1)

/-- Whether some existing document agrees with `nd` on the index keys. -/
def anyCollides (docs : List BDoc) (keys : List (String × Int)) (nd : BDoc) : Bool :=
  docs.any (fun d => collides keys d nd)

/-- Whether some pair of documents in the list agrees on the index keys
(a duplicate that would make building a unique index fail). -/
def hasDupPair : List BDoc → List (String × Int) → Bool
  | [], _ => false
  | d :: ds, keys => anyCollides ds keys d || hasDupPair ds keys

/-- The `E11000` error a unique index raises on a duplicate insert. -/
def dupKeyMsg : String := "E11000 duplicate key error"

/-- One statement of the script against the database.  `Except.error`
means the statement threw; by convention the database is then unchanged. -/
def applyOp (s : MDb) : MOp → Except String MDb
  | .createUser u p r =>
      if s.dbUsers.any (fun x => x.user == u) then
        .error ("user " ++ u ++ " already exists")
      else .ok { s with dbUsers := s.dbUsers ++ [⟨u, p, r⟩] }
  | .createCollection c =>
      if (lookupColl s c).isSome then
        .error ("collection " ++ c ++ " already exists")
      else .ok { s with colls := s.colls ++ [(c, ⟨[], []⟩)] }
  | .createIndex c keys uniq =>
      match lookupColl s c with
      | none => .ok { s with colls := s.colls ++ [(c, ⟨[⟨keys, uniq⟩], []⟩)] }
      | some col =>
          if col.idxs.any (fun ix => ix.keys == keys) then .ok s
          else if uniq && hasDupPair col.docs keys then
            .error "index build failed: duplicate key"
          else .ok (setColl s c { col with idxs := col.idxs ++ [⟨keys, uniq⟩] })
  | .insertOne c nd =>
      match lookupColl s c with
      | none => .ok { s with colls := s.colls ++ [(c, ⟨[], [nd]⟩)] }
      | some col =>
          if col.idxs.any (fun ix => ix.unique && anyCollides col.docs ix.keys nd) then
            .error dupKeyMsg
          else .ok (setColl s c { col with docs := col.docs ++ [nd] })

/-- The stateful view of one statement: the resulting database (unchanged
on failure) together with the error, if any. -/
def applyOpSt (s : MDb) (op : MOp) : MDb × Option String :=
  match applyOp s op with
  | .ok s2 => (s2, none)
  | .error e => (s, some e)

/-- Run a script: statements in order, aborting at the first error
(an uncaught exception terminates a mongo shell script). -/
def runOps : MDb → List MOp → Except String MDb
  | s, [] => .ok s
  | s, op :: ops =>
      match applyOp s op with
      | .ok s2 => runOps s2 ops
      | .error e => .error e

/-- The document seeded into `settings` by `db.settings.insertOne`. -/
def botSettingsDoc (now : Nat) : BDoc :=
  [("_id", BVal.str "bot_settings"),
   ("auto_delete_messages", BVal.bool true),
   ("auto_delete_interval", BVal.int 30),
   ("welcome_message", BVal.str "欢迎使用Telegram Bot!"),
   ("created_at", BVal.date now)]

/-- The statements of `mongo-init.js`, in source order: `createUser`, the
four `createCollection` calls, the five `createIndex` calls and the one
`insertOne`.  The script is straight-line: this list does not depend on
the database state. -/
def mongoInitOps (now : Nat) : List MOp :=
  [MOp.createUser "admin" "465465Daz" [("readWrite", "tgbot")],
   MOp.createCollection "users",
   MOp.createCollection "messages",
   MOp.createCollection "groups",
   MOp.createCollection "settings",
   MOp.createIndex "users" [("user_id", 1)] true,
   MOp.createIndex "messages" [("message_id", 1)] false,
   MOp.createIndex "messages" [("chat_id", 1)] false,
   MOp.createIndex "messages" [("date", 1)] false,
   MOp.createIndex "groups" [("group_id", 1)] true,
   MOp.insertOne "settings" (botSettingsDoc now)]

/-- A fresh document store: no collections, no users. -/
def freshDb : MDb := ⟨[], []⟩

/-- The database state the bootstrap script produces on a fresh store. -/
def tgbotDb (now : Nat) : MDb :=
  { colls :=
      [("users", ⟨[⟨[("user_id", 1)], true⟩], []⟩),
       ("messages",
        ⟨[⟨[("message_id", 1)], false⟩, ⟨[("chat_id", 1)], false⟩,
          ⟨[("date", 1)], false⟩], []⟩),
       ("groups", ⟨[⟨[("group_id", 1)], true⟩], []⟩),
       ("settings", ⟨[], [botSettingsDoc now]⟩)],
    dbUsers := [⟨"admin", "465465Daz", [("readWrite", "tgbot")]⟩] }

/-- The names of the database's collections, in creation order. -/
def collNames (s : MDb) : List String := s.colls.map Prod.fst

/-- The documents of a named collection (empty when it does not exist). -/
def docsOf (s : MDb) (c : String) : List BDoc :=
  ((lookupColl s c).map MColl.docs).getD []

theorem runMongoInit_ok (now : Nat) :
    runOps freshDb (mongoInitOps now) = Except.ok (tgbotDb now) := rfl

/-- The bootstrapped database with its application user removed: used to
check that the collection-creation statements are as unguarded as the
user-creation one. -/
def tgbotDbNoUser (now : Nat) : MDb := { tgbotDb now with dbUsers := [] }

/-- C1: running the bootstrap script against a fresh document store leaves
the `tgbot` database with exactly the four collections `users`, `messages`,
`groups`, `settings`, and exactly one document in `settings`, whose id is
`bot_settings`. -/
theorem mongoInit_fresh_state (now : Nat) :
    ∃ s : MDb, runOps freshDb (mongoInitOps now) = Except.ok s ∧
      collNames s = ["users", "messages", "groups", "settings"] ∧
      (docsOf s "settings").length = 1 ∧
      (docsOf s "settings").map (fun d => getField d "_id") =
        [some (BVal.str "bot_settings")] :=
  ⟨tgbotDb now, runMongoInit_ok now, rfl, rfl, rfl⟩

/-- C5: the seeded settings document has fixed id "bot_settings", a boolean
`auto_delete_messages`, an integer `auto_delete_interval` (30 minutes), a
string `welcome_message` and a timestamp `created_at`, and it is the single
document of the `settings` collection. -/
theorem mongoInit_settings_doc (now : Nat) :
    ∃ s : MDb, runOps freshDb (mongoInitOps now) = Except.ok s ∧
      docsOf s "settings" =
        [[("_id", BVal.str "bot_settings"),
          ("auto_delete_messages", BVal.bool true),
          ("auto_delete_interval", BVal.int 30),
          ("welcome_message", BVal.str "欢迎使用Telegram Bot!"),
          ("created_at", BVal.date now)]] :=
  ⟨tgbotDb now, runMongoInit_ok now, rfl⟩

/-- C9: the bootstrap script writes documents only to `settings`: after it
runs, the `users`, `messages` and `groups` collections exist but hold no
documents. -/
theorem mongoInit_only_settings_written (now : Nat) :
    ∃ s : MDb, runOps freshDb (mongoInitOps now) = Except.ok s ∧
      "users" ∈ collNames s ∧ "messages" ∈ collNames s ∧ "groups" ∈ collNames s ∧
      docsOf s "users" = [] ∧ docsOf s "messages" = [] ∧ docsOf s "groups" = [] :=
  ⟨tgbotDb now, runMongoInit_ok now,
   by simp [collNames, tgbotDb], by simp [collNames, tgbotDb],
   by simp [collNames, tgbotDb], rfl, rfl, rfl⟩

/-- C4: the bootstrap script is not guarded against re-execution: it is a
fixed statement list whose first statement is the unguarded `createUser`,
so a second run against the bootstrapped database fails on the existing
user instead of skipping it, and even with the user absent it fails on the
first existing collection. -/
theorem mongoInit_not_reentrant (now now2 : Nat) :
    (mongoInitOps now2).head? =
      some (MOp.createUser "admin" "465465Daz" [("readWrite", "tgbot")]) ∧
    runOps freshDb (mongoInitOps now) = Except.ok (tgbotDb now) ∧
    runOps (tgbotDb now) (mongoInitOps now2) =
      Except.error "user admin already exists" ∧
    runOps (tgbotDbNoUser now) (mongoInitOps now2) =
      Except.error "collection users already exists" :=
  ⟨rfl, runMongoInit_ok now, rfl, rfl⟩

/-- Whether a collection of the database carries a unique index on a
single field, as `users.user_id` and `groups.group_id` do after bootstrap. -/
def hasUniqueIndexOn (s : MDb) (c f : String) : Bool :=
  match lookupColl s c with
  | some col => col.idxs.any (fun ix => ix.unique && ix.keys == [(f, 1)])
  | none => false

theorem beqSymm {α : Type _} [BEq α] [LawfulBEq α] (a b : α) :
    (a == b) = (b == a) := by
  rw [Bool.eq_iff_iff]
  simp only [beq_iff_eq]
  exact eq_comm

theorem collides_comm (keys : List (String × Int)) (d1 d2 : BDoc) :
    collides keys d1 d2 = collides keys d2 d1 := by
  induction keys with
  | nil => rfl
  | cons k ks ih =>
      simp only [collides, List.all_cons] at *
      rw [ih, beqSymm]

theorem hasDupPair_append (ds : List BDoc) (keys : List (String × Int)) (nd : BDoc) :
    hasDupPair (ds ++ [nd]) keys = (hasDupPair ds keys || anyCollides ds keys nd) := by
  induction ds with
  | nil => rfl
  | cons d ds ih =>
      simp only [List.cons_append, hasDupPair, List.append_eq]
      rw [ih]
      simp only [anyCollides, List.any_append, List.any_cons, List.any_nil]
      rw [collides_comm keys nd d]
      cases ds.any fun x => collides keys x d <;> cases collides keys d nd <;>
        cases hasDupPair ds keys <;> cases ds.any fun x => collides keys x nd <;> rfl

theorem find_set_coll (l : List (String × MColl)) (c : String) (col2 : MColl)
    (h : (l.find? (fun p => p.1 == c)).isSome = true) :
    ((l.map (fun p => if p.1 == c then (p.1, col2) else p)).find?
        (fun p => p.1 == c)).map Prod.snd = some col2 := by
  induction l with
  | nil => simp at h
  | cons hd t ih =>
      by_cases hk : (hd.1 == c) = true
      · rw [List.map_cons, if_pos hk, List.find?_cons_of_pos _ (by simpa using hk)]
        rfl
      · rw [List.find?_cons_of_neg _ (by simpa using hk)] at h
        rw [List.map_cons, if_neg hk, List.find?_cons_of_neg _ (by simpa using hk)]
        exact ih h

theorem lookupColl_setColl (s : MDb) (c : String) (col col2 : MColl)
    (h : lookupColl s c = some col) :
    lookupColl (setColl s c col2) c = some col2 := by
  have hs : (s.colls.find? (fun p => p.1 == c)).isSome = true := by
    unfold lookupColl at h
    cases hf : s.colls.find? (fun p => p.1 == c) with
    | none => rw [hf] at h; simp at h
    | some v => rfl
  exact find_set_coll s.colls c col2 hs

/-- A duplicate insert on a unique single-field index fails and leaves the
database unchanged. -/
theorem insert_dup_fails (s : MDb) (c f : String) (d nd : BDoc)
    (hidx : hasUniqueIndexOn s c f = true)
    (hd : d ∈ docsOf s c)
    (hf : getField nd f = getField d f) :
    applyOpSt s (MOp.insertOne c nd) = (s, some dupKeyMsg) := by
  unfold hasUniqueIndexOn at hidx
  cases hcol : lookupColl s c with
  | none => rw [hcol] at hidx; exact absurd hidx (by simp)
  | some col =>
      rw [hcol] at hidx
      obtain ⟨ix, hmem, hix⟩ := List.any_eq_true.mp hidx
      rw [Bool.and_eq_true] at hix
      have hkeys : ix.keys = [(f, 1)] := beq_iff_eq.mp hix.2
      rw [docsOf, hcol] at hd
      have hcoll : collides [(f, 1)] d nd = true := by
        simp only [collides, List.all_cons, List.all_nil, Bool.and_true]
        exact beq_iff_eq.mpr hf.symm
      have hany : anyCollides col.docs ix.keys nd = true := by
        rw [hkeys]
        exact List.any_eq_true.mpr ⟨d, hd, hcoll⟩
      have hchk : col.idxs.any
          (fun ix2 => ix2.unique && anyCollides col.docs ix2.keys nd) = true :=
        List.any_eq_true.mpr ⟨ix, hmem, by rw [Bool.and_eq_true]; exact ⟨hix.1, hany⟩⟩
      have hAp : applyOp s (MOp.insertOne c nd) = Except.error dupKeyMsg := by
        simp only [applyOp]
        rw [hcol]
        simp [hchk]
      unfold applyOpSt
      rw [hAp]

/-- A successful insert preserves pairwise uniqueness of a field guarded by
a unique index. -/
theorem insert_preserves_unique (s : MDb) (c f : String) (nd : BDoc) (s2 : MDb)
    (hidx : hasUniqueIndexOn s c f = true)
    (hnodup : hasDupPair (docsOf s c) [(f, 1)] = false)
    (hok : applyOp s (MOp.insertOne c nd) = Except.ok s2) :
    hasDupPair (docsOf s2 c) [(f, 1)] = false := by
  unfold hasUniqueIndexOn at hidx
  cases hcol : lookupColl s c with
  | none => rw [hcol] at hidx; exact absurd hidx (by simp)
  | some col =>
      rw [hcol] at hidx
      obtain ⟨ix, hmem, hix⟩ := List.any_eq_true.mp hidx
      rw [Bool.and_eq_true] at hix
      have hkeys : ix.keys = [(f, 1)] := beq_iff_eq.mp hix.2
      cases hchk : col.idxs.any
          (fun ix2 => ix2.unique && anyCollides col.docs ix2.keys nd) with
      | true =>
          have hAp : applyOp s (MOp.insertOne c nd) = Except.error dupKeyMsg := by
            simp only [applyOp]
            rw [hcol]
            simp [hchk]
          rw [hAp] at hok
          exact absurd hok (by simp)
      | false =>
          have hAp : applyOp s (MOp.insertOne c nd) =
              Except.ok (setColl s c { col with docs := col.docs ++ [nd] }) := by
            simp only [applyOp]
            rw [hcol]
            simp [hchk]
          rw [hAp] at hok
          rw [Except.ok.injEq] at hok
          have hnocoll : anyCollides col.docs [(f, 1)] nd = false := by
            have hx := List.any_eq_false.mp hchk ix hmem
            rw [Bool.and_eq_true, hkeys] at hx
            cases ha : anyCollides col.docs [(f, 1)] nd with
            | false => rfl
            | true => exact absurd ⟨hix.1, ha⟩ hx
          rw [← hok, docsOf, lookupColl_setColl s c col _ hcol]
          show hasDupPair (col.docs ++ [nd]) [(f, 1)] = false
          rw [hasDupPair_append, hnocoll, Bool.or_false]
          rw [docsOf, hcol] at hnodup
          exact hnodup

/-- C2: in any database state carrying the bootstrap's unique indexes,
inserting a second document with an already-present `user_id` into `users`
(respectively `group_id` into `groups`) fails with a duplicate-key error
and leaves the database unchanged, and pairwise uniqueness of the indexed
field is preserved by every successful insert. -/
theorem mongo_unique_insert (s : MDb) (d nd : BDoc) :
    (hasUniqueIndexOn s "users" "user_id" = true → d ∈ docsOf s "users" →
      getField nd "user_id" = getField d "user_id" →
      applyOpSt s (MOp.insertOne "users" nd) = (s, some dupKeyMsg)) ∧
    (hasUniqueIndexOn s "groups" "group_id" = true → d ∈ docsOf s "groups" →
      getField nd "group_id" = getField d "group_id" →
      applyOpSt s (MOp.insertOne "groups" nd) = (s, some dupKeyMsg)) ∧
    (∀ (c f : String) (s2 : MDb), hasUniqueIndexOn s c f = true →
      hasDupPair (docsOf s c) [(f, 1)] = false →
      applyOp s (MOp.insertOne c nd) = Except.ok s2 →
      hasDupPair (docsOf s2 c) [(f, 1)] = false) :=
  ⟨fun hi hd hf => insert_dup_fails s "users" "user_id" d nd hi hd hf,
   fun hi hd hf => insert_dup_fails s "groups" "group_id" d nd hi hd hf,
   fun c f s2 hi hn hok => insert_preserves_unique s c f nd s2 hi hn hok⟩

/-- The bootstrapped database after one successful user insert. -/
def tgbotDbOneUser : MDb :=
  (applyOpSt (tgbotDb 0) (MOp.insertOne "users" [("user_id", BVal.int 7)])).1

theorem mongo_unique_insert_witness :
    applyOpSt tgbotDbOneUser
        (MOp.insertOne "users" [("user_id", BVal.int 7), ("name", BVal.str "dup")]) =
      (tgbotDbOneUser, some dupKeyMsg) :=
  (mongo_unique_insert tgbotDbOneUser [("user_id", BVal.int 7)]
      [("user_id", BVal.int 7), ("name", BVal.str "dup")]).1
    (by decide) (by decide) (by decide)

/-! ## Image publish scripts (`docker-push.sh` and the batch variant)

Both scripts set a DockerHub user name, prompt for confirmation, and on an
affirmative answer run `docker tag tgbot <user>/tgbot:latest` followed by
`docker push <user>/tgbot:latest`.  The shell script tests the answer with
the anchored regex `^[Yy]$`; the batch script with the case-insensitive
comparison `if /i not "%CONFIRM%"=="Y" exit /b`. -/

/-- The registry-mutating docker commands the publish scripts can run. -/
inductive DockerCmd where
  | tag (src dst : String)
  | push (img : String)
deriving DecidableEq, Repr

/-- One run of a publish script: the docker commands executed, in order,
and the exit code of the script. -/
structure ScriptRun where
  cmds : List DockerCmd
  exitCode : Nat
deriving DecidableEq, Repr

/-- The shell script's confirmation test `[[ "$CONFIRM" =~ ^[Yy]$ ]]`:
the anchored one-character class accepts exactly "Y" and "y". -/
def shConfirm : List Char → Bool
  | [c] => c == 'Y' || c == 'y'
  | _ => false

/-- ASCII case folding to upper case, as `cmd.exe` applies for `if /i`,
expressed on character codes. -/
def foldUp (c : Char) : Nat :=
  if 97 ≤ c.toNat ∧ c.toNat ≤ 122 then c.toNat - 32 else c.toNat

/-- Case-insensitive character equality. -/
def ciCharEq (a b : Char) : Bool := foldUp a == foldUp b

/-- Case-insensitive string equality, the semantics of the batch
comparison `if /i "%CONFIRM%"=="Y"`. -/
def ciEqChars : List Char → List Char → Bool
  | [], [] => true
  | a :: as, b :: bs => ciCharEq a b && ciEqChars as bs
  | _, _ => false

/-- The batch script's confirmation test: case-insensitive equality of the
answer with "Y". -/
def batConfirm (a : List Char) : Bool := ciEqChars a ['Y']

/-- `DOCKER_USERNAME` as set at the top of the shell script. -/
def shDockerUsername : String := "your-username"

/-- `DOCKER_USERNAME` as set at the top of the batch script. -/
def batDockerUsername : String := "diciky"

/-- `docker-push.sh` as a function of the namespace the operator sets in
`DOCKER_USERNAME` and of the answer typed at the prompt.  On an
affirmative answer it tags the fixed local image `tgbot` as
`<namespace>/tgbot:latest` and pushes that tag; otherwise it prints the
cancel message and exits with code 1 having run no docker command. -/
def dockerPushSh (username : String) (answer : List Char) : ScriptRun :=
  if shConfirm answer then
    { cmds := [DockerCmd.tag "tgbot" (username ++ "/tgbot:latest"),
               DockerCmd.push (username ++ "/tgbot:latest")],
      exitCode := 0 }
  else { cmds := [], exitCode := 1 }

/-- The batch variant: the same two commands behind its own confirmation
test; `exit /b` leaves exit code 0. -/
def dockerPushBat (username : String) (answer : List Char) : ScriptRun :=
  if batConfirm answer then
    { cmds := [DockerCmd.tag "tgbot" (username ++ "/tgbot:latest"),
               DockerCmd.push (username ++ "/tgbot:latest")],
      exitCode := 0 }
  else { cmds := [], exitCode := 0 }

theorem char_beq_toNat (c d : Char) : (c == d) = (c.toNat == d.toNat) := by
  rw [Bool.eq_iff_iff]
  simp only [beq_iff_eq, Nat.beq_eq_true_eq]
  constructor
  · intro h
    subst h
    rfl
  · intro h
    exact Char.ext (UInt32.ext h)

theorem ciCharEq_Y (c : Char) : ciCharEq c 'Y' = (c == 'Y' || c == 'y') := by
  unfold ciCharEq foldUp
  rw [char_beq_toNat c 'Y', char_beq_toNat c 'y']
  by_cases h : 97 ≤ c.toNat ∧ c.toNat ≤ 122
  · rw [if_pos h]
    show (c.toNat - 32 == 89) = (c.toNat == 89 || c.toNat == 121)
    rw [Bool.eq_iff_iff]
    simp only [Nat.beq_eq_true_eq, Bool.or_eq_true]
    omega
  · rw [if_neg h]
    show (c.toNat == 89) = (c.toNat == 89 || c.toNat == 121)
    rw [Bool.eq_iff_iff]
    simp only [Nat.beq_eq_true_eq, Bool.or_eq_true]
    omega

theorem shConfirm_eq_batConfirm (a : List Char) : shConfirm a = batConfirm a := by
  match a with
  | [] => rfl
  | [c] =>
      show (c == 'Y' || c == 'y') = (ciCharEq c 'Y' && true)
      rw [Bool.and_true, ciCharEq_Y]
  | c :: d :: rest =>
      show false = (ciCharEq c 'Y' && ciEqChars (d :: rest) [])
      exact (Bool.and_false _).symm

theorem shConfirm_iff (a : List Char) :
    shConfirm a = true ↔ (a = ['Y'] ∨ a = ['y']) := by
  match a with
  | [] => simp [shConfirm]
  | [c] =>
      show (c == 'Y' || c == 'y') = true ↔ _
      simp only [Bool.or_eq_true, beq_iff_eq, List.cons.injEq, and_true]
  | c :: d :: rest => simp [shConfirm]

/-- C3: any answer other than the affirmative "Y" or "y" makes each
publish script abort with no docker command executed: nothing is tagged
and nothing is pushed on a negative answer, in either variant. -/
theorem publish_neg_answer_aborts (username : String) (answer : List Char)
    (hY : answer ≠ ['Y']) (hy : answer ≠ ['y']) :
    (dockerPushSh username answer).cmds = [] ∧
    (dockerPushBat username answer).cmds = [] := by
  have hsh : shConfirm answer = false := by
    cases hs : shConfirm answer with
    | false => rfl
    | true =>
        rcases (shConfirm_iff answer).mp hs with h | h
        · exact absurd h hY
        · exact absurd h hy
  have hbat : batConfirm answer = false := by
    rw [← shConfirm_eq_batConfirm]
    exact hsh
  constructor
  · unfold dockerPushSh
    rw [hsh]
    rfl
  · unfold dockerPushBat
    rw [hbat]
    rfl

theorem publish_neg_answer_aborts_witness :
    (dockerPushSh "diciky" ['n']).cmds = [] ∧
    (dockerPushBat "diciky" ['n']).cmds = [] :=
  publish_neg_answer_aborts "diciky" ['n'] (by decide) (by decide)

/-- C8: the two publish-script variants accept exactly the same set of
affirmative answers, run the same docker commands on every namespace and
answer, and on an affirmative answer that common behaviour is precisely
the two-step sequence tagging the fixed local image `tgbot` as
`<namespace>/tgbot:latest` and pushing that tag. -/
theorem publish_scripts_equiv (username : String) (answer : List Char) :
    shConfirm answer = batConfirm answer ∧
    (dockerPushSh username answer).cmds = (dockerPushBat username answer).cmds ∧
    (shConfirm answer = true →
      (dockerPushSh username answer).cmds =
        [DockerCmd.tag "tgbot" (username ++ "/tgbot:latest"),
         DockerCmd.push (username ++ "/tgbot:latest")]) := by
  refine ⟨shConfirm_eq_batConfirm answer, ?_, ?_⟩
  · unfold dockerPushSh dockerPushBat
    rw [← shConfirm_eq_batConfirm answer]
    cases shConfirm answer <;> rfl
  · intro h
    unfold dockerPushSh
    rw [h]
    rfl

theorem publish_scripts_equiv_witness :
    (dockerPushSh "diciky" ['y']).cmds =
      [DockerCmd.tag "tgbot" ("diciky" ++ "/tgbot:latest"),
       DockerCmd.push ("diciky" ++ "/tgbot:latest")] :=
  (publish_scripts_equiv "diciky" ['y']).2.2 (by decide)

/-! ## Container build (`Dockerfile`)

The Dockerfile is a straight-line instruction list.  Build arguments come
from outside (`docker build --build-arg`); `ARG WEB_PORT=7000` takes the
supplied value or the default, `ENV WEB_PORT=${WEB_PORT}` copies it into
the environment, `EXPOSE ${WEB_PORT}` exposes it, and `CMD` fixes the
start command. -/

/-- A value position in a Dockerfile instruction: either literal text or a
`${NAME}` variable reference. -/
inductive DExpr where
  | lit (s : String)
  | var (name : String)
deriving DecidableEq, Repr

/-- A Dockerfile instruction, covering the forms the file uses. -/
inductive DockerInstr where
  | fromImage (base : String)
  | workdir (dir : String)
  | envSet (key : String) (value : DExpr)
  | runCmd (c : String)
  | copy (src dst : String)
  | argDecl (key : String) (dflt : Option String)
  | expose (portExpr : DExpr)
  | cmd (argv : List String)
deriving DecidableEq, Repr

/-- The state accumulated while interpreting the Dockerfile. -/
structure BuildState where
  baseImage : Option String
  workDir : Option String
  env : List (String × String)
  args : List (String × String)
  exposed : List String
  entry : Option (List String)
  runCmds : List String
  copies : List (String × String)
deriving DecidableEq, Repr

/-- The empty build state. -/
def buildStart : BuildState :=
  { baseImage := none, workDir := none, env := [], args := [],
    exposed := [], entry := none, runCmds := [], copies := [] }

/-- Resolve a value: a `${NAME}` reference reads the environment first and
the declared build arguments second (`ENV` shadows `ARG`); a literal is
itself. -/
def resolveVar (st : BuildState) : DExpr → String
  | .lit s => s
  | .var name =>
      match st.env.lookup name with
      | some v => v
      | none => (st.args.lookup name).getD ""

/-- One Dockerfile instruction against the build state.  `argDecl`
consults the externally supplied build arguments. -/
def applyInstr (buildArgs : List (String × String)) (st : BuildState) :
    DockerInstr → BuildState
  | .fromImage b => { st with baseImage := some b }
  | .workdir d => { st with workDir := some d }
  | .envSet k v => { st with env := st.env ++ [(k, resolveVar st v)] }
  | .runCmd c => { st with runCmds := st.runCmds ++ [c] }
  | .copy src dst => { st with copies := st.copies ++ [(src, dst)] }
  | .argDecl k dflt =>
      match buildArgs.lookup k with
      | some v => { st with args := st.args ++ [(k, v)] }
      | none =>
          match dflt with
          | some v => { st with args := st.args ++ [(k, v)] }
          | none => st
  | .expose p => { st with exposed := st.exposed ++ [resolveVar st p] }
  | .cmd argv => { st with entry := some argv }

/-- The repository's Dockerfile, instruction by instruction. -/
def tgbotDockerfile : List DockerInstr :=
  [DockerInstr.fromImage "python:3.11-slim",
   DockerInstr.workdir "/app",
   DockerInstr.envSet "TZ" (DExpr.lit "Asia/Shanghai"),
   DockerInstr.runCmd "ln -snf /usr/share/zoneinfo/$TZ /etc/localtime && echo $TZ > /etc/timezone",
   DockerInstr.copy "requirements.txt" ".",
   DockerInstr.runCmd "pip install --no-cache-dir -r requirements.txt",
   DockerInstr.copy "." ".",
   DockerInstr.runCmd "mkdir -p logs",
   DockerInstr.argDecl "WEB_PORT" (some "7000"),
   DockerInstr.envSet "WEB_PORT" (DExpr.var "WEB_PORT"),
   DockerInstr.expose (DExpr.var "WEB_PORT"),
   DockerInstr.cmd ["python", "main.py"]]

/-- Build the image configuration from the supplied build arguments. -/
def buildImage (buildArgs : List (String × String)) : BuildState :=
  tgbotDockerfile.foldl (applyInstr buildArgs) buildStart

/-- C6: for every value of the `WEB_PORT` build argument the built image
exposes exactly that port, which also equals the `WEB_PORT` environment
variable, and runs the fixed start command `python main.py`; with the
argument unset the exposed port defaults to 7000. -/
theorem dockerfile_port_and_cmd (p : String) :
    (buildImage [("WEB_PORT", p)]).exposed = [p] ∧
    (buildImage [("WEB_PORT", p)]).env.lookup "WEB_PORT" = some p ∧
    (buildImage [("WEB_PORT", p)]).entry = some ["python", "main.py"] ∧
    (buildImage []).exposed = ["7000"] ∧
    (buildImage []).env.lookup "WEB_PORT" = some "7000" ∧
    (buildImage []).entry = some ["python", "main.py"] :=
  ⟨rfl, rfl, rfl, rfl, rfl, rfl⟩

/-! ## Patch script (`fix_api_path.sh`)

The script runs, inside the container, the substitution

  sed -i 's/axios.defaults.baseURL = .*/axios.defaults.baseURL = "";/g'

over `app/templates/base.html`.  sed works line by line; the basic regular
expression is the 25-character text `axios.defaults.baseURL = ` (each `.`
matching any character) followed by `.*`, which extends every match to the
end of the line, so on each line only the leftmost match is replaced and
everything from there to the end of the line becomes the replacement
text. -/

/-- The fixed part of the sed search pattern, character by character;
the two `.` are wildcards. -/
def patChars : List Char := "axios.defaults.baseURL = ".toList

/-- The sed replacement text: the base URL hard-coded to the empty
string. -/
def replChars : List Char := "axios.defaults.baseURL = \"\";".toList

/-- One pattern character against one text character: `.` matches any. -/
def charMatch (p c : Char) : Bool := p == '.' || p == c

/-- Whether the pattern characters match at the head of the text. -/
def prefMatch : List Char → List Char → Bool
  | [], _ => true
  | _ :: _, [] => false
  | p :: ps, c :: cs => charMatch p c && prefMatch ps cs

/-- The substitution on one line: scan for the leftmost position where the
fixed pattern matches; there the match runs to the end of the line (`.*`),
so the line becomes the scanned prefix plus the replacement text. -/
def sedLine : List Char → List Char
  | [] => []
  | c :: cs => if prefMatch patChars (c :: cs) then replChars else c :: sedLine cs

/-- The prefix of a line before its leftmost match. -/
def sedPre : List Char → List Char
  | [] => []
  | c :: cs => if prefMatch patChars (c :: cs) then [] else c :: sedPre cs

/-- Whether some position of the line matches the pattern. -/
def hasMatch : List Char → Bool
  | [] => false
  | c :: cs => prefMatch patChars (c :: cs) || hasMatch cs

/-- The whole-file substitution: sed applies the command to every line. -/
def sedFile (ls : List (List Char)) : List (List Char) := ls.map sedLine

theorem prefMatch_cons (p : Char) (ps : List Char) (c : Char) (cs : List Char) :
    prefMatch (p :: ps) (c :: cs) = (charMatch p c && prefMatch ps cs) := rfl

theorem sedLine_cons (c : Char) (cs : List Char) :
    sedLine (c :: cs) =
      if prefMatch patChars (c :: cs) then replChars else c :: sedLine cs := rfl

theorem sedPre_cons (c : Char) (cs : List Char) :
    sedPre (c :: cs) =
      if prefMatch patChars (c :: cs) then [] else c :: sedPre cs := rfl

theorem hasMatch_cons (c : Char) (cs : List Char) :
    hasMatch (c :: cs) = (prefMatch patChars (c :: cs) || hasMatch cs) := rfl

/-- No proper suffix of the pattern matches the head of the replacement
text: the pattern cannot match across the boundary of a replacement. -/
theorem pat_no_self_overlap :
    ∀ d : Fin 25, 0 < d.val → prefMatch (patChars.drop d.val) replChars = false := by
  decide

theorem patChars_length : patChars.length = 25 := by decide

theorem patChars_head : patChars = 'a' :: patChars.drop 1 := by decide

/-- Replacing a line cannot create a pattern suffix match that was not
already there: if a proper pattern suffix matches the substituted tail, it
matched the original tail. -/
theorem prefMatch_drop_sedLine (cs : List Char) (d : Nat) (hd : 1 ≤ d)
    (h : prefMatch (patChars.drop d) (sedLine cs) = true) :
    prefMatch (patChars.drop d) cs = true := by
  induction cs generalizing d with
  | nil => exact h
  | cons b bs ih =>
      by_cases hlt : d < 25
      · by_cases hm : prefMatch patChars (b :: bs) = true
        · rw [sedLine_cons, if_pos hm] at h
          have hno : prefMatch (patChars.drop d) replChars = false :=
            pat_no_self_overlap ⟨d, hlt⟩ hd
          rw [hno] at h
          simp at h
        · rw [sedLine_cons, if_neg hm] at h
          rw [List.drop_eq_getElem_cons (by rw [patChars_length]; exact hlt)] at h ⊢
          rw [prefMatch_cons, Bool.and_eq_true] at h ⊢
          exact ⟨h.1, ih (d + 1) (by omega) h.2⟩
      · rw [List.drop_eq_nil_of_le (by rw [patChars_length]; omega)]
        rfl

theorem sedLine_replChars : sedLine replChars = replChars := by decide

/-- The line substitution is idempotent. -/
theorem sedLine_idem (l : List Char) : sedLine (sedLine l) = sedLine l := by
  induction l with
  | nil => rfl
  | cons c cs ih =>
      by_cases hm : prefMatch patChars (c :: cs) = true
      · rw [sedLine_cons, if_pos hm]
        exact sedLine_replChars
      · rw [sedLine_cons, if_neg hm]
        have h2 : prefMatch patChars (c :: sedLine cs) = false := by
          cases hp : prefMatch patChars (c :: sedLine cs) with
          | false => rfl
          | true =>
              exfalso
              apply hm
              rw [patChars_head, prefMatch_cons, Bool.and_eq_true] at hp
              rw [patChars_head, prefMatch_cons, Bool.and_eq_true]
              exact ⟨hp.1, prefMatch_drop_sedLine cs 1 (by omega) hp.2⟩
        rw [sedLine_cons, h2]
        simp only [Bool.false_eq_true, if_false]
        rw [ih]

/-- The substituted form of one line, split into the unmatched prefix and
the replacement. -/
theorem sedLine_split (l : List Char) :
    sedLine l = if hasMatch l = true then sedPre l ++ replChars else l := by
  induction l with
  | nil => rfl
  | cons c cs ih =>
      by_cases hm : prefMatch patChars (c :: cs) = true
      · have hh : hasMatch (c :: cs) = true := by
          rw [hasMatch_cons, hm, Bool.true_or]
        rw [sedLine_cons, if_pos hm, if_pos hh, sedPre_cons, if_pos hm]
        rfl
      · have hmf : prefMatch patChars (c :: cs) = false := by
          cases hq : prefMatch patChars (c :: cs) with
          | false => rfl
          | true => exact absurd hq hm
        have hh : hasMatch (c :: cs) = hasMatch cs := by
          rw [hasMatch_cons, hmf, Bool.false_or]
        rw [sedLine_cons, if_neg hm, ih, hh, sedPre_cons, if_neg hm]
        by_cases h2 : hasMatch cs = true
        · rw [if_pos h2, if_pos h2]
          rfl
        · rw [if_neg h2, if_neg h2]

/-- C7: the patch script's substitution rewrites exactly the lines on
which the axios base-URL pattern matches, replacing everything from the
leftmost match to the end of the line by the assignment of the empty
string, and leaves every other line unchanged. -/
theorem fix_api_path_subst (ls : List (List Char)) :
    sedFile ls =
      ls.map (fun l => if hasMatch l = true then sedPre l ++ replChars else l) := by
  unfold sedFile
  exact List.map_congr_left (fun l _ => sedLine_split l)

/-- C10: the substitution is idempotent: the replacement text itself
matches the search pattern, and running the patch script a second time
over any file content changes nothing. -/
theorem fix_api_path_idem (ls : List (List Char)) :
    prefMatch patChars replChars = true ∧ sedFile (sedFile ls) = sedFile ls := by
  constructor
  · decide
  · unfold sedFile
    rw [List.map_map]
    exact List.map_congr_left (fun l _ => sedLine_idem l)

end Tgbot
